import Mathlib

/-!
Verification of the TM74HC595 7-segment display driver (`TM74HC595.py`)
against its natural-language specification.

The driver is shallowly embedded: pure functions of the source become Lean
functions; the three GPIO output lines are modelled by a trace of line
events; the monotonic millisecond clock is modelled by the list of values
successive `time.ticks_ms()` calls observe; Python exceptions are modelled
with `Except PyErr`.  Python's `%` on integers with a positive modulus
agrees with Lean's `Int.emod` (`%`), which is what we use.
-/

namespace TM74HC595

/-- Python exceptions that the driver's code paths can raise. -/
inductive PyErr where
  | keyError
  | indexError
  | valueError
  | attributeError
  | zeroDivisionError
deriving DecidableEq, Repr

instance {ε α : Type} [DecidableEq ε] [DecidableEq α] : DecidableEq (Except ε α) := fun x y =>
  match x, y with
  | .ok a, .ok b => if h : a = b then .isTrue (by rw [h]) else .isFalse (by simp [h])
  | .error e, .error f => if h : e = f then .isTrue (by rw [h]) else .isFalse (by simp [h])
  | .ok _, .error _ => .isFalse (by simp)
  | .error _, .ok _ => .isFalse (by simp)

/-! ## Module constants (`TM74HC595.py` lines 44-74) -/

/-- `LIT = const(0b0)` — logic level that lights a segment. -/
def LIT : Nat := 0b0

/-- `UNLIT = const(0b1)` — logic level that leaves a segment dark. -/
def UNLIT : Nat := 0b1

/-- `SEGMENT8 = const('.')` — the designated point/colon character. -/
def SEGMENT8 : Char := '.'

/-- `BLANK = const(' ')`. -/
def BLANK : Char := ' '

/-- `UNDEF = const('_')` — the fallback character for undefined glyphs.
The spec (§6) calls it disableable (set to `None`), so it is modelled as an
`Option Char`; the shipped default is `some '_'`. -/
def UNDEF : Option Char := some '_'

/-- The `TINKER_FONT` dictionary (lines 52-71), as an association list.
The commented-out entries of the source (`'a'`, `'g'`) are omitted, as in
the source. -/
def TINKER_FONT : List (Char × Nat) := [
  ('0', 0x3F), ('1', 0x06), ('2', 0x5B), ('3', 0x4F), ('4', 0x66),
  ('5', 0x6D), ('6', 0x7D), ('7', 0x27), ('8', 0x7F), ('9', 0x6F),
  ('A', 0x77), ('B', 0x7F), ('C', 0x39), ('D', 0x3F), ('E', 0x79), ('F', 0x71), ('G', 0x3D),
  ('H', 0x76), ('I', 0x06), ('J', 0x1E), ('K', 0x75), ('L', 0x38), ('M', 0x55), ('N', 0x37),
  ('O', 0x3F), ('P', 0x73), ('Q', 0x67), ('R', 0x33), ('S', 0x6D), ('T', 0x07), ('U', 0x3E),
  ('V', 0x2A), ('W', 0x6A), ('X', 0x76), ('Y', 0x6E), ('Z', 0x1B),
  ('b', 0x7C), ('c', 0x58), ('d', 0x5E), ('h', 0x74), ('i', 0x04),
  ('j', 0x0C), ('l', 0x30), ('n', 0x54), ('o', 0x5C), ('r', 0x50),
  ('t', 0x78), ('u', 0x1C), ('v', 0x14), ('w', 0x1D),
  (' ', 0x00), ('_', 0x08), ('-', 0x40), ('‾', 0x01), ('^', 0x01),
  ('(', 0x39), (')', 0x0F), ('[', 0x39), (']', 0x0F),
  ('"', 0x22), ('`', 0x02), (Char.ofNat 39, 0x20),
  ('?', 0x53), ('!', 0x82), ('°', 0x63)]

/-- Python dict lookup `font[c]` as an `Option` (later duplicate keys would
shadow earlier ones, but `TINKER_FONT` has distinct keys, so `find?` agrees
with the dict). -/
def fontFind (font : List (Char × Nat)) (c : Char) : Option Nat :=
  (font.find? (fun p => p.1 == c)).map Prod.snd

/-! ## Encoder (`Display.encode`, lines 141-172) -/

/-- Value of a hexadecimal digit, as accepted by `ubinascii.unhexlify`
(both cases). -/
def hexVal (c : Char) : Option Nat :=
  if '0' ≤ c ∧ c ≤ '9' then some (c.toNat - '0'.toNat)
  else if 'a' ≤ c ∧ c ≤ 'f' then some (10 + c.toNat - 'a'.toNat)
  else if 'A' ≤ c ∧ c ≤ 'F' then some (10 + c.toNat - 'A'.toNat)
  else none

/-- The bare `except:` handler (lines 168-170):
`if UNDEF is not None: result.append(self._font[UNDEF])`.
If a fallback is configured but absent from the font, the `KeyError` from
the handler itself propagates. -/
def pyUndefAppend (font : List (Char × Nat)) (undef : Option Char)
    (result : List Nat) : Except PyErr (List Nat) :=
  match undef with
  | none => .ok result
  | some u =>
    match fontFind font u with
    | some g => .ok (result ++ [g])
    | none => .error .keyError

/-- `result[-1] |= 0b10000000`; `none` models the `IndexError` raised when
`result` is empty. -/
def orLast (result : List Nat) : Option (List Nat) :=
  match result.getLast? with
  | none => none
  | some b => some (result.dropLast ++ [b ||| 0b10000000])

/-- `ubinascii.unhexlify` of the two-character slice `text[i+1:i+3]`:
`some` of the byte value iff both characters are hex digits, `none` for the
`ValueError` of a malformed pair. -/
def hexPair (c1 c2 : Char) : Option Nat :=
  (hexVal c1).bind fun h1 => (hexVal c2).map fun h2 => 16 * h1 + h2

/-- The `while i < len(text)` loop of `encode` (lines 148-171).  `i` is the
source's index into the padded text (used only for the `if i:` tests); the
list argument is the text from position `i` on.  Because the `'#'` branch
looks ahead up to two characters, the loop is specialized on how many
characters remain (at least three, exactly two, exactly one): the shorter
cases inline the same branch logic with the loop's end (`return
tuple(result)`) substituted where the source would run off the text and
the exception handler already fired.  Each branch of the source's
character classification appears as the same `if`-chain in all three
non-empty cases; the whole try-body falls into `pyUndefAppend` on any
exception. -/
def encodeGo (font : List (Char × Nat)) (undef : Option Char) :
    List Char → Nat → List Nat → Except PyErr (List Nat)
  | [], _, result => .ok result
  | [c], i, result =>
    if c = SEGMENT8 then
      -- `if i: result[-1] |= 0b10000000` (IndexError on empty result)
      if i ≠ 0 then (orLast result).elim (pyUndefAppend font undef result) (fun r => .ok r)
      else .ok result
    else if c = '#' then
      -- `text[i+1]` raises IndexError at the end of the text
      pyUndefAppend font undef result
    else if c = '?' ∧ fontFind font '?' = some 0x53 ∧ SEGMENT8 = '.' then
      if i ≠ 0 then
        (orLast result).elim (pyUndefAppend font undef result)
          (fun r => (fontFind font '?').elim (pyUndefAppend font undef r)
            (fun g => .ok (r ++ [g])))
      else
        (fontFind font '?').elim (pyUndefAppend font undef result)
          (fun g => .ok (result ++ [g]))
    else
      -- `result.append(self._font[c])` (KeyError when absent)
      (fontFind font c).elim (pyUndefAppend font undef result)
        (fun g => .ok (result ++ [g]))
  | [c, c1], i, result =>
    if c = SEGMENT8 then
      if i ≠ 0 then
        (orLast result).elim
          (pyUndefAppend font undef result >>= fun q => encodeGo font undef [c1] (i + 1) q)
          (fun r => encodeGo font undef [c1] (i + 1) r)
      else encodeGo font undef [c1] (i + 1) result
    else if c = '#' then
      if c1 = '#' then
        -- self-escape: `i += 1; result.append(self._font['#'])`, then the loop ends
        (fontFind font '#').elim (pyUndefAppend font undef result)
          (fun g => .ok (result ++ [g]))
      else
        -- `i += 2`; the slice `text[i-1:i+1]` has odd length 1: ValueError
        pyUndefAppend font undef result
    else if c = '?' ∧ fontFind font '?' = some 0x53 ∧ SEGMENT8 = '.' then
      if i ≠ 0 then
        (orLast result).elim
          (pyUndefAppend font undef result >>= fun q => encodeGo font undef [c1] (i + 1) q)
          (fun r => (fontFind font '?').elim
            (pyUndefAppend font undef r >>= fun q => encodeGo font undef [c1] (i + 1) q)
            (fun g => encodeGo font undef [c1] (i + 1) (r ++ [g])))
      else
        (fontFind font '?').elim
          (pyUndefAppend font undef result >>= fun q => encodeGo font undef [c1] (i + 1) q)
          (fun g => encodeGo font undef [c1] (i + 1) (result ++ [g]))
    else
      (fontFind font c).elim
        (pyUndefAppend font undef result >>= fun q => encodeGo font undef [c1] (i + 1) q)
        (fun g => encodeGo font undef [c1] (i + 1) (result ++ [g]))
  | c :: c1 :: c2 :: rest2, i, result =>
    if c = SEGMENT8 then
      if i ≠ 0 then
        (orLast result).elim
          (pyUndefAppend font undef result >>= fun q => encodeGo font undef (c1 :: c2 :: rest2) (i + 1) q)
          (fun r => encodeGo font undef (c1 :: c2 :: rest2) (i + 1) r)
      else encodeGo font undef (c1 :: c2 :: rest2) (i + 1) result
    else if c = '#' then
      if c1 = '#' then
        -- self-escape: `i += 1; result.append(self._font['#'])`
        (fontFind font '#').elim
          (pyUndefAppend font undef result >>= fun q => encodeGo font undef (c2 :: rest2) (i + 2) q)
          (fun g => encodeGo font undef (c2 :: rest2) (i + 2) (result ++ [g]))
      else
        -- `i += 2; result.append(ubinascii.unhexlify(text[i-1:i+1])[0])`
        (hexPair c1 c2).elim
          (pyUndefAppend font undef result >>= fun q => encodeGo font undef rest2 (i + 3) q)
          (fun v => encodeGo font undef rest2 (i + 3) (result ++ [v]))
    else if c = '?' ∧ fontFind font '?' = some 0x53 ∧ SEGMENT8 = '.' then
      -- the special '?' branch (lines 162-165)
      if i ≠ 0 then
        (orLast result).elim
          (pyUndefAppend font undef result >>= fun q => encodeGo font undef (c1 :: c2 :: rest2) (i + 1) q)
          (fun r => (fontFind font '?').elim
            (pyUndefAppend font undef r >>= fun q => encodeGo font undef (c1 :: c2 :: rest2) (i + 1) q)
            (fun g => encodeGo font undef (c1 :: c2 :: rest2) (i + 1) (r ++ [g])))
      else
        (fontFind font '?').elim
          (pyUndefAppend font undef result >>= fun q => encodeGo font undef (c1 :: c2 :: rest2) (i + 1) q)
          (fun g => encodeGo font undef (c1 :: c2 :: rest2) (i + 1) (result ++ [g]))
    else
      (fontFind font c).elim
        (pyUndefAppend font undef result >>= fun q => encodeGo font undef (c1 :: c2 :: rest2) (i + 1) q)
        (fun g => encodeGo font undef (c1 :: c2 :: rest2) (i + 1) (result ++ [g]))

/-- `Display.encode(text, padding=0)`.  `padding is True` resolves to the
digit count at the call site; here `padding` is already a number.  With
`padding = 0` the source skips the concatenation, which equals
concatenating zero blanks. -/
def encode (font : List (Char × Nat)) (undef : Option Char) (text : String)
    (padding : Nat := 0) : Except PyErr (List Nat) :=
  encodeGo font undef
    (List.replicate padding BLANK ++ text.data ++ List.replicate padding BLANK) 0 []

/-- `encode` with the module defaults (`TINKER_FONT`, fallback `'_'`). -/
def encodeD (text : String) : Except PyErr (List Nat) :=
  encode TINKER_FONT UNDEF text

example : encodeD "A" = .ok [0x77] := by decide
example : encodeD "A." = .ok [0xF7] := by decide
example : encodeD "." = .ok [] := by decide
example : encodeD "##" = .ok [0x08] := by decide
example : encodeD "#3F" = .ok [0x3F] := by decide
example : encodeD "#G1" = .ok [0x08] := by decide
example : encodeD "#" = .ok [0x08] := by decide
example : encodeD "#A" = .ok [0x08] := by decide
example : encode TINKER_FONT none "@" = .ok [] := by decide
example : encodeD "@" = .ok [0x08] := by decide

/-! ## Transmitter (`Display._update_displays`, lines 111-126) -/

/-- One event on the three output lines: `self.dio.value(v)`,
`self.sclk.value(v)` or `self.rclk.value(v)`. -/
inductive LineEv where
  | dio : Nat → LineEv
  | sclk : Nat → LineEv
  | rclk : Nat → LineEv
deriving DecidableEq, Repr

/-- One `while m != uint(0)` shift loop of `_update_displays`: present
`v & m` (as a truth value) through `present` on the data line, pulse the
shift clock low-then-high, halve the mask. -/
def shiftLoop (present : Bool → Nat) (v : Nat) (m : Nat) : List LineEv :=
  if h : m = 0 then []
  else
    LineEv.dio (present (v &&& m != 0)) :: LineEv.sclk 0 :: LineEv.sclk 1 ::
      shiftLoop present v (m >>> 1)
termination_by m
decreasing_by
  simp only [Nat.shiftRight_one]
  exact Nat.div_lt_self (Nat.pos_of_ne_zero h) (by norm_num)

/-- `Display._update_displays(b, d)` as the trace of output-line events it
produces: segment bits presented as `LIT`/`UNLIT`, digit bits as literal
`1`/`0` (line 121: "1/0 not LIT/UNLIT"), then the latch pulse. -/
def update_displays (b d : Nat) : List LineEv :=
  shiftLoop (fun bit => if bit then LIT else UNLIT) b 0b10000000 ++
  shiftLoop (fun bit => if bit then 1 else 0) d 0b10000000 ++
  [LineEv.rclk 0, LineEv.rclk 1]

/-- Modelled from the spec's words (§4.1), for the refinement claim C1:
the 8 bits of `b` MSB-first as LIT/UNLIT with a shift-clock low-then-high
pulse after each, then the 8 bits of `d` MSB-first as literal 1/0 likewise,
then exactly one latch-clock low-then-high pulse. -/
def transmitSpec (b d : Nat) : List LineEv :=
  ((List.range 8).flatMap fun i =>
    [LineEv.dio (if b.testBit (7 - i) then LIT else UNLIT),
     LineEv.sclk 0, LineEv.sclk 1]) ++
  ((List.range 8).flatMap fun i =>
    [LineEv.dio (if d.testBit (7 - i) then 1 else 0),
     LineEv.sclk 0, LineEv.sclk 1]) ++
  [LineEv.rclk 0, LineEv.rclk 1]

lemma and_pow_ne_zero_eq_testBit (v k : Nat) : (v &&& 2 ^ k != 0) = v.testBit k := by
  rw [Nat.and_two_pow]
  cases h : v.testBit k
  · simp
  · simpa using pow_ne_zero k (by norm_num : (2 : ℕ) ≠ 0)

lemma shiftLoop_zero (p : Bool → Nat) (v : Nat) : shiftLoop p v 0 = [] := by
  rw [shiftLoop]
  simp

lemma shiftLoop_two_pow (p : Bool → Nat) (v k : Nat) :
    shiftLoop p v (2 ^ k) =
      (List.range (k + 1)).flatMap fun i =>
        [LineEv.dio (p (v.testBit (k - i))), LineEv.sclk 0, LineEv.sclk 1] := by
  induction k with
  | zero =>
    rw [shiftLoop, dif_neg (by norm_num : ¬ (2 : ℕ) ^ 0 = 0),
      and_pow_ne_zero_eq_testBit,
      show (2 : ℕ) ^ 0 >>> 1 = 0 from by decide, shiftLoop_zero]
    simp [List.range_succ]
  | succ k ih =>
    have hm : ¬ (2 : Nat) ^ (k + 1) = 0 := by positivity
    have hs : (2 : Nat) ^ (k + 1) >>> 1 = 2 ^ k := by
      rw [Nat.shiftRight_one, pow_succ, Nat.mul_div_cancel _ (by norm_num)]
    rw [shiftLoop, dif_neg hm, hs, ih, and_pow_ne_zero_eq_testBit]
    conv_rhs => rw [List.range_succ_eq_map, List.flatMap_cons, List.flatMap_map]
    simp only [Function.comp, Nat.succ_sub_succ_eq_sub, Nat.sub_zero, Nat.succ_eq_add_one]
    rfl

/-- C1: for every segment byte `b` and digit mask `d`, `_update_displays`
drives the lines exactly as §4.1 describes: the 8 bits of `b` MSB-first as
LIT/UNLIT with a shift-clock low-then-high pulse after each bit, then the
8 bits of `d` MSB-first as literal 1/0, then a single latch-clock
low-then-high pulse after the 16 bit-shifts. -/
theorem C1_update_displays_matches_transmitSpec (b d : Nat) :
    update_displays b d = transmitSpec b d := by
  unfold update_displays transmitSpec
  rw [show (0b10000000 : Nat) = 2 ^ 7 by norm_num, shiftLoop_two_pow, shiftLoop_two_pow]

/-! ## Timed refresh loops (`print` lines 201-221, `scroll` lines 284-293)

The monotonic millisecond clock is modelled by the list of values the
successive `time.ticks_ms()` calls observe; when the modelled observation
list is exhausted the loop is truncated (the real clock never ends, so a
finite observation list is a finite prefix of a run). -/

/-- A call of `_update_displays(byte, digitmask)` or `time.sleep(q)` made
by a display operation. -/
inductive TraceEv where
  | update : Nat → Int → TraceEv
  | sleep : ℚ → TraceEv
deriving DecidableEq, Repr

/-- The shared loop-exit test of `print` (line 220) and `scroll`
(line 292): `not (duration > 0) or (t - t0 >= duration * 1000) or (t < t0)`. -/
def loopBreak (duration : ℚ) (t0 t : Int) : Bool :=
  !(decide (0 < duration)) || decide ((t : ℚ) - (t0 : ℚ) ≥ duration * 1000) ||
    decide (t < t0)

/-- Number of passes a `while True: ...; t = ticks_ms(); if <loopBreak>: break`
loop performs, given the observed timestamps; the pass before the first
observation always happens, and an exhausted observation list truncates. -/
def passesUntilBreak (duration : ℚ) (t0 : Int) : List Int → Nat
  | [] => 1
  | t :: ts => if loopBreak duration t0 t then 1 else 1 + passesUntilBreak duration t0 ts

/-- `t0 = time.ticks_ms()` against the modelled observation list. -/
def takeTick : List Int → Int × List Int
  | [] => (0, [])
  | t :: ts => (t, ts)

/-- Python dict lookup `font[c]`, raising `KeyError` when absent. -/
def pyFontGet (font : List (Char × Nat)) (c : Char) : Except PyErr Nat :=
  match fontFind font c with
  | some g => .ok g
  | none => .error .keyError

/-! ## `Display.blast` (lines 177-189) -/

/-- `Display.blast(msg, displays=-1, duration=1, clear=None)` on an
already-encoded message, as the trace of `_update_displays` calls and
sleeps it makes.  `clear=None` resolves to `len(msg) > 1`. -/
def blast (font : List (Char × Nat)) (msg : List Nat) (displays : Int)
    (duration : ℚ) (clear : Option Bool) : Except PyErr (List TraceEv) :=
  let c := clear.getD (decide (1 < msg.length))
  let body := msg.flatMap fun b =>
    TraceEv.update b displays :: (if 0 < duration then [TraceEv.sleep duration] else [])
  if c then
    pyFontGet font BLANK >>= fun blank => .ok (body ++ [TraceEv.update blank displays])
  else .ok body

/-! ## `Display.print` (lines 193-224) -/

/-- One `for i in range(len(msg))` pass of `print` (lines 204-218) from
message index `i` on.  `dls` is `self._displays`, `Lt` is `len(msg)` of the
whole message, `f` the current fade mask.  Returns the trace and the
`used_displays` bits accumulated by the pass.  Forward addressing
(`pos >= 0`) breaks on the first `IndexError`; reverse addressing skips
out-of-range positions individually. -/
def printPassGo (dls : List Int) (Lt : Nat) (pos : Int) (f : Nat) (duration : ℚ) :
    Nat → List Nat → List TraceEv × Int
  | _, [] => ([], 0)
  | i, b :: rest =>
    -- `if displays:` then transmit (when duration > 0) and record the mask
    let step : Int → List TraceEv × Int := fun d =>
      let p := printPassGo dls Lt pos f duration (i + 1) rest
      if d ≠ 0 then
        ((if 0 < duration then [TraceEv.update (b &&& f) d] else []) ++ p.1, Int.lor d p.2)
      else p
    if 0 ≤ pos then
      -- `except IndexError: break` on an out-of-range forward position
      (dls.get? (pos + (i : Int)).toNat).elim ([], 0) step
    else
      let j : Int := (dls.length : Int) - (Lt : Int) + pos + (i : Int) + 1
      if 0 ≤ j then
        -- `except IndexError: pass` on an out-of-range reverse position
        (dls.get? j.toNat).elim (step 0) step
      else step 0

/-- The `while True` refresh loop of `print` for one fade mask, driven by
the remaining clock observations.  Returns the trace, the `used_displays`
bits, and the unconsumed observations. -/
def printWhile (dls : List Int) (Lt : Nat) (pos : Int) (f : Nat) (duration : ℚ)
    (msg : List Nat) (t0 : Int) : List Int → List TraceEv × Int × List Int
  | [] =>
    let p := printPassGo dls Lt pos f duration 0 msg
    (p.1, p.2, [])
  | t :: ts =>
    let p := printPassGo dls Lt pos f duration 0 msg
    if loopBreak duration t0 t then (p.1, p.2, ts)
    else
      let q := printWhile dls Lt pos f duration msg t0 ts
      (p.1 ++ q.1, Int.lor p.2 q.2.1, q.2.2)

/-- The `for f in fade` loop of `print` (lines 201-221). -/
def printFades (dls : List Int) (msg : List Nat) (pos : Int) (duration : ℚ) :
    List Nat → List Int → List TraceEv × Int × List Int
  | [], ticks => ([], 0, ticks)
  | f :: fs, ticks =>
    let w := printWhile dls msg.length pos f duration msg (takeTick ticks).1 (takeTick ticks).2
    let r := printFades dls msg pos duration fs w.2.2
    (w.1 ++ r.1, Int.lor w.2.1 r.2.1, r.2.2)

/-- `Display.print(msg, pos=0, duration=1, fade=(0b11111111,), clear=None)`
on an already-encoded message: the fade loop, then
`if clear and used_displays: self._clear_displays(used_displays)`. -/
def print (font : List (Char × Nat)) (dls : List Int) (msg : List Nat) (pos : Int)
    (duration : ℚ) (fade : List Nat) (clear : Option Bool) (ticks : List Int) :
    Except PyErr (List TraceEv) :=
  let c := clear.getD (decide (1 < msg.length))
  let pf := printFades dls msg pos duration fade ticks
  if c ∧ pf.2.1 ≠ 0 then
    pyFontGet font BLANK >>= fun blank => .ok (pf.1 ++ [TraceEv.update blank pf.2.1])
  else .ok pf.1

/-! ## `Display.scroll_init` / `Display.scroll` (lines 269-301) -/

/-- The scroller's session state: `_scroll_encoded` and `_scroll_cursor`. -/
structure ScrollState where
  encoded : List Nat
  cursor : Int
deriving DecidableEq, Repr

/-- A Python sequence that is either a `tuple` or a `list` — `scroll_init`
receives either `self.encode(msg)` (a tuple) or a caller-supplied
sequence. -/
inductive PySeq where
  | tup : List Nat → PySeq
  | lst : List Nat → PySeq
deriving DecidableEq, Repr

def pyLen : PySeq → Nat
  | .tup l => l.length
  | .lst l => l.length

def pySeqList : PySeq → List Nat
  | .tup l => l
  | .lst l => l

/-- The `while len(msg) < len(self._displays): msg.insert(0, self._font[BLANK])`
loop of `scroll_init` (lines 275-276).  Attribute lookup `msg.insert` happens
before the font lookup, and a tuple has no `insert`, so it raises
`AttributeError`.  Fuel `D` suffices because every insert grows the length
by one. -/
def padGo (font : List (Char × Nat)) (D : Nat) : Nat → PySeq → Except PyErr PySeq
  | 0, s => .ok s
  | fuel + 1, s =>
    if pyLen s < D then
      match s with
      | .tup _ => .error .attributeError
      | .lst l => do
        let blank ← pyFontGet font BLANK
        padGo font D fuel (.lst (blank :: l))
    else .ok s

/-- `Display.scroll_init(msg, start=0)` on an already-encoded sequence. -/
def scroll_initSeq (font : List (Char × Nat)) (D : Nat) (msg : PySeq) (start : Int) :
    Except PyErr ScrollState :=
  padGo font D D msg >>= fun s =>
    let enc := pySeqList s
    .ok ⟨enc, if 0 ≤ start then start else (enc.length : Int) - (D : Int) + start + 1⟩

/-- `Display.scroll_init(msg, start=0)` on a string: `msg = self.encode(msg)`
returns a tuple, then the padding loop runs on that tuple. -/
def scroll_initStr (font : List (Char × Nat)) (undef : Option Char) (D : Nat)
    (msg : String) (start : Int) : Except PyErr ScrollState :=
  encode font undef msg >>= fun enc => scroll_initSeq font D (.tup enc) start

/-- The `for i in range(len(self._displays))` body of one `scroll` pass
(lines 286-290), from loop counter `i` over the remaining counters:
read `_scroll_encoded[(cursor + i) % len(_scroll_encoded)]` (a
`ZeroDivisionError` on an empty message), transmit it to digit mask
`1 << (D - 1 - i)` when `duration > 0`. -/
def scrollPassGo (enc : List Nat) (cursor : Int) (duration : ℚ) (D : Nat) :
    List Nat → Except PyErr (List TraceEv)
  | [] => .ok []
  | i :: is =>
    if enc.length = 0 then .error .zeroDivisionError
    else
      -- `except IndexError: break` (unreachable for a non-empty message)
      (enc.get? ((cursor + (i : Int)) % (enc.length : Int)).toNat).elim (.ok [])
        (fun b => scrollPassGo enc cursor duration D is >>= fun tr =>
          .ok ((if 0 < duration then [TraceEv.update b ((2 ^ (D - 1 - i) : Nat) : Int)]
                else []) ++ tr))

/-- One full pass of the `scroll` refresh loop. -/
def scrollPass (D : Nat) (enc : List Nat) (cursor : Int) (duration : ℚ) :
    Except PyErr (List TraceEv) :=
  scrollPassGo enc cursor duration D (List.range D)

/-- The `while True` refresh loop of `scroll` (lines 285-293), driven by
the remaining clock observations. -/
def scrollWhile (D : Nat) (enc : List Nat) (cursor : Int) (duration : ℚ)
    (t0 : Int) : List Int → Except PyErr (List TraceEv)
  | [] => scrollPass D enc cursor duration
  | t :: ts =>
    scrollPass D enc cursor duration >>= fun tr =>
      if loopBreak duration t0 t then .ok tr
      else scrollWhile D enc cursor duration t0 ts >>= fun tr2 => .ok (tr ++ tr2)

/-- `Display.scroll(amount=+1, duration=1)`: the refresh loop, `self.clear()`
(an unconditional `_update_displays(font[BLANK], -1)`), then the cursor
update `(cursor + amount) % len(encoded)` performed in both branches, with
the returned boolean `(cursor + amount + D) <= len(encoded) and
cursor + amount >= 0`. -/
def scrollCall (font : List (Char × Nat)) (D : Nat) (st : ScrollState)
    (amount : Int) (duration : ℚ) (ticks : List Int) :
    Except PyErr (List TraceEv × Bool × ScrollState) :=
  scrollWhile D st.encoded st.cursor duration (takeTick ticks).1 (takeTick ticks).2 >>=
    fun tr => pyFontGet font BLANK >>= fun blank =>
      if st.encoded.length = 0 then .error .zeroDivisionError
      else
        .ok (tr ++ [TraceEv.update blank (-1)],
          decide (st.cursor + amount + (D : Int) ≤ (st.encoded.length : Int) ∧
            0 ≤ st.cursor + amount),
          ⟨st.encoded, (st.cursor + amount) % (st.encoded.length : Int)⟩)

/-- Repeated `scroll(+1, duration=0)` calls, recording for each call the
cursor position it processed and the boolean it returned. -/
def scrollSeq (font : List (Char × Nat)) (D : Nat) (st : ScrollState) :
    Nat → Except PyErr (List (Int × Bool) × ScrollState)
  | 0 => .ok ([], st)
  | n + 1 =>
    scrollCall font D st 1 0 [] >>= fun res =>
      scrollSeq font D res.2.2 n >>= fun rec =>
        .ok ((st.cursor, res.2.1) :: rec.1, rec.2)

example :
    scroll_initStr TINKER_FONT UNDEF 4 "AB" 0 = .error .attributeError := by decide
example :
    scrollCall TINKER_FONT 2 ⟨[1, 2, 3], 0⟩ 1 0 [] =
      .ok ([TraceEv.update 0 (-1)], true, ⟨[1, 2, 3], 1⟩) := by decide
example :
    scrollCall TINKER_FONT 2 ⟨[1, 2, 3], 1⟩ 1 0 [] =
      .ok ([TraceEv.update 0 (-1)], false, ⟨[1, 2, 3], 2⟩) := by decide
example :
    scrollSeq TINKER_FONT 2 ⟨[1, 2, 3, 4, 5], 0⟩ 4 =
      .ok ([(0, true), (1, true), (2, true), (3, false)], ⟨[1, 2, 3, 4, 5], 4⟩) := by
  decide
example :
    blast TINKER_FONT [1, 2] (-1) 0 none =
      .ok [TraceEv.update 1 (-1), TraceEv.update 2 (-1), TraceEv.update 0 (-1)] := by
  decide
example :
    print TINKER_FONT [8, 4, 2, 1] [0x6E, 0x3F, 0x82] 0 0 [0xFF] (some false) [] =
      .ok [] := by decide

/-! ## Claim theorems -/

/-- C2 counterexample: the claim says that on clock wraparound
(`t < t0`) the refresh loops treat the budget as not yet exceeded and keep
going; but at the concrete wrapped observation `t0 = 100`, `t = 5` with a
1-second budget the shared exit test of `print` and `scroll` is satisfied,
so the loop terminates instead of keeping going. -/
theorem C2_counterexample_wrap_breaks : loopBreak 1 100 5 = true := by
  simp [loopBreak]

/-- C2 amended: in every timed refresh loop (print and scroll), when the
newly observed timestamp is smaller than the loop's start timestamp, the
loop treats the budget as exhausted and terminates at once — the pass that
observed the wrapped timestamp is the only (at most one) extra pass, and
the loop neither stalls nor keeps going. -/
theorem C2_wraparound_terminates (duration : ℚ) (t0 t : Int) (ts : List Int)
    (h : t < t0) :
    loopBreak duration t0 t = true ∧ passesUntilBreak duration t0 (t :: ts) = 1 := by
  have hb : loopBreak duration t0 t = true := by simp [loopBreak, h]
  exact ⟨hb, by simp [passesUntilBreak, hb]⟩

/-- C2 witness: the amended statement at the concrete wrapped clock. -/
theorem C2_wraparound_terminates_witness :
    loopBreak 1 100 5 = true ∧ passesUntilBreak 1 100 [5] = 1 :=
  C2_wraparound_terminates 1 100 5 [] (by decide)

/-- C3 counterexample: the claim says a malformed literal escape is a hard
failure never recovered by fallback substitution; but with the default
fallback configured, `encode("#G1")` succeeds and substitutes the fallback
glyph `0x08` — the bare `except:` handler recovers the `ValueError`. -/
theorem C3_counterexample_fallback_recovers : encodeD "#G1" = .ok [0x08] := by decide

/-- C3 amended: a malformed literal escape (marker followed by two
characters that are not a valid hex pair, or truncated at the end of the
text) is handled like every other failure of the loop body: with the
default fallback `'_'` configured the fallback glyph `0x08` is substituted
(consuming marker and lookahead per the source's index arithmetic), and
with the fallback disabled the escape is silently skipped; it never
propagates to the caller. -/
theorem C3_malformed_escape (c1 c2 : Char) (rest : List Char) (i : Nat)
    (acc : List Nat) (h1 : c1 ≠ '#') (h2 : hexPair c1 c2 = none) :
    encodeGo TINKER_FONT (some '_') ('#' :: c1 :: c2 :: rest) i acc =
        encodeGo TINKER_FONT (some '_') rest (i + 3) (acc ++ [0x08]) ∧
      encodeGo TINKER_FONT none ('#' :: c1 :: c2 :: rest) i acc =
        encodeGo TINKER_FONT none rest (i + 3) acc ∧
      encodeGo TINKER_FONT (some '_') ['#'] i acc = .ok (acc ++ [0x08]) ∧
      encodeGo TINKER_FONT none ['#'] i acc = .ok acc ∧
      encodeGo TINKER_FONT (some '_') ['#', c1] i acc = .ok (acc ++ [0x08]) ∧
      encodeGo TINKER_FONT none ['#', c1] i acc = .ok acc := by
  refine ⟨?_, ?_, ?_, ?_, ?_, ?_⟩
  · conv_lhs => rw [encodeGo]
    rw [if_neg (by decide), if_pos rfl, if_neg h1, h2]
    rfl
  · conv_lhs => rw [encodeGo]
    rw [if_neg (by decide), if_pos rfl, if_neg h1, h2]
    rfl
  · conv_lhs => rw [encodeGo]
    rw [if_neg (by decide), if_pos rfl]
    rfl
  · conv_lhs => rw [encodeGo]
    rw [if_neg (by decide), if_pos rfl]
    rfl
  · conv_lhs => rw [encodeGo]
    rw [if_neg (by decide), if_pos rfl, if_neg h1]
    rfl
  · conv_lhs => rw [encodeGo]
    rw [if_neg (by decide), if_pos rfl, if_neg h1]
    rfl

/-- C3 witness: the amended statement at the concrete malformed escape
`"#G1"` of the counterexample. -/
theorem C3_malformed_escape_witness :
    encodeGo TINKER_FONT (some '_') ['#', 'G', '1'] 0 [] =
        encodeGo TINKER_FONT (some '_') [] 3 [0x08] ∧
      encodeGo TINKER_FONT none ['#', 'G', '1'] 0 [] =
        encodeGo TINKER_FONT none [] 3 [] ∧
      encodeGo TINKER_FONT (some '_') ['#'] 0 [] = .ok [0x08] ∧
      encodeGo TINKER_FONT none ['#'] 0 [] = .ok [] ∧
      encodeGo TINKER_FONT (some '_') ['#', 'G'] 0 [] = .ok [0x08] ∧
      encodeGo TINKER_FONT none ['#', 'G'] 0 [] = .ok [] :=
  C3_malformed_escape 'G' '1' [] 0 [] (by decide) (by decide)

/-- C4 counterexample: the claim says that with no fallback configured,
`encode` raises on a character absent from the font; but the bare
`except:` handler swallows the `KeyError` and silently drops the
character: `encode("@")` with the fallback disabled returns the empty
sequence instead of raising. -/
theorem C4_counterexample_silent_drop : encode TINKER_FONT none "@" = .ok [] := by
  decide

/-- C4 amended: for a character absent from the font (other than the
point/colon and escape markers, which never reach the font lookup): with a
fallback configured the fallback glyph is substituted — the character is
never silently dropped and `encode` does not raise; with no fallback
configured the character is silently dropped — `encode` does not raise
either (instead of propagating the failure as claimed). -/
theorem C4_fallback_policy (c : Char) (rest : List Char) (i : Nat) (acc : List Nat)
    (hfont : fontFind TINKER_FONT c = none) (hdot : c ≠ SEGMENT8) (hhash : c ≠ '#') :
    encodeGo TINKER_FONT (some '_') (c :: rest) i acc =
        encodeGo TINKER_FONT (some '_') rest (i + 1) (acc ++ [0x08]) ∧
      encodeGo TINKER_FONT none (c :: rest) i acc =
        encodeGo TINKER_FONT none rest (i + 1) acc := by
  have hq : ¬(c = '?' ∧ fontFind TINKER_FONT '?' = some 0x53 ∧ SEGMENT8 = '.') := by
    rintro ⟨rfl, -, -⟩
    exact absurd hfont (by decide)
  rcases rest with - | ⟨c1, - | ⟨c2, rest2⟩⟩
  · constructor
    · conv_lhs => rw [encodeGo]
      rw [if_neg hdot, if_neg hhash, if_neg hq, hfont]
      rfl
    · conv_lhs => rw [encodeGo]
      rw [if_neg hdot, if_neg hhash, if_neg hq, hfont]
      rfl
  · constructor
    · conv_lhs => rw [encodeGo]
      rw [if_neg hdot, if_neg hhash, if_neg hq, hfont]
      rfl
    · conv_lhs => rw [encodeGo]
      rw [if_neg hdot, if_neg hhash, if_neg hq, hfont]
      rfl
  · constructor
    · conv_lhs => rw [encodeGo]
      rw [if_neg hdot, if_neg hhash, if_neg hq, hfont]
      rfl
    · conv_lhs => rw [encodeGo]
      rw [if_neg hdot, if_neg hhash, if_neg hq, hfont]
      rfl

/-- C4 witness: the amended statement at the concrete unknown character
`'@'`. -/
theorem C4_fallback_policy_witness :
    encodeGo TINKER_FONT (some '_') ['@'] 0 [] =
        encodeGo TINKER_FONT (some '_') [] 1 [0x08] ∧
      encodeGo TINKER_FONT none ['@'] 0 [] = encodeGo TINKER_FONT none [] 1 [] :=
  C4_fallback_policy '@' [] 0 [] (by decide) (by decide) (by decide)

/-- C6: the designated point/colon character merges into the previous
emitted byte by OR-ing in bit 7 and emits no element of its own: on any
font, at any non-initial position, with any previously emitted bytes, the
point rewrites the last emitted byte in place; concretely
`encode("A.")` is `encode("A")` with bit 7 set on its single byte, and
`encode(".")` is the empty sequence (no crash). -/
theorem C6_point_merges (font : List (Char × Nat)) (undef : Option Char)
    (rest : List Char) (i : Nat) (acc : List Nat) (h : acc ≠ []) :
    encodeGo font undef (SEGMENT8 :: rest) (i + 1) acc =
      encodeGo font undef rest (i + 2) (acc.dropLast ++ [acc.getLast h ||| 0b10000000]) ∧
    encodeD "A" = .ok [0x77] ∧ encodeD "A." = .ok [0x77 ||| 0b10000000] ∧
    encodeD "." = .ok [] := by
  have horl : orLast acc = some (acc.dropLast ++ [acc.getLast h ||| 0b10000000]) := by
    rw [orLast, List.getLast?_eq_getLast acc h]
  refine ⟨?_, by decide, by decide, by decide⟩
  match rest with
  | [] =>
    conv_lhs => rw [encodeGo]
    rw [if_pos rfl, if_pos (by simp), horl]
    rfl
  | [c1] =>
    conv_lhs => rw [encodeGo]
    rw [if_pos rfl, if_pos (by simp), horl]
    rfl
  | c1 :: c2 :: rest2 =>
    conv_lhs => rw [encodeGo]
    rw [if_pos rfl, if_pos (by simp), horl]
    rfl

/-- C6 witness: a point after an emitted `'A'` byte merges bit 7 into it. -/
theorem C6_point_merges_witness :
    encodeGo TINKER_FONT UNDEF [SEGMENT8] 1 [0x77] =
      encodeGo TINKER_FONT UNDEF [] 2 [0xF7] := by
  have h := (C6_point_merges TINKER_FONT UNDEF [] 0 [0x77] (by decide)).1
  exact h.trans (by decide)

/-- C7: the claim says `encode("##")` emits the font's own glyph for `'#'`;
but `TINKER_FONT` has no entry for `'#'`, so the self-escape branch's
`result.append(self._font['#'])` always raises `KeyError` with the shipped
font and the bare handler substitutes the fallback glyph `font['_'] = 0x08`
instead — the dedicated self-escape code can never behave as written. -/
theorem C7_self_escape_falls_back :
    fontFind TINKER_FONT '#' = none ∧ encodeD "##" = .ok [0x08] ∧
    fontFind TINKER_FONT '_' = some 0x08 := by decide

/-- C8: the claim (and the evident intent of the padding loop) says a
message shorter than the digit count is left-padded with blanks; but
`encode` returns a tuple, and `tuple` has no `insert`, so `scroll_init` on
a short string raises `AttributeError` before any padding happens.  The
same loop on a caller-supplied mutable list does pad as intended, which
shows the claim describes the code's intent. -/
theorem C8_short_scroll_init_crashes :
    scroll_initStr TINKER_FONT UNDEF 4 "AB" 0 = .error .attributeError ∧
    scroll_initSeq TINKER_FONT 4 (.lst [0x77, 0x7F]) 0 =
      .ok ⟨[0x00, 0x00, 0x77, 0x7F], 0⟩ := by decide

/-- C9: whenever a `scroll(amount, duration)` call completes (any integer
`amount`, including negative ones and ones larger than one), the new
cursor lies within `[0, len(message))`; a completing call forces the
message to be non-empty, since an empty one raises `ZeroDivisionError`. -/
theorem C9_cursor_in_range (font : List (Char × Nat)) (D : Nat) (st : ScrollState)
    (amount : Int) (duration : ℚ) (ticks : List Int) (tr : List TraceEv) (r : Bool)
    (st' : ScrollState)
    (h : scrollCall font D st amount duration ticks = .ok (tr, r, st')) :
    0 ≤ st'.cursor ∧ st'.cursor < (st'.encoded.length : Int) := by
  unfold scrollCall at h
  cases hw : scrollWhile D st.encoded st.cursor duration (takeTick ticks).1
      (takeTick ticks).2 with
  | error e =>
    rw [hw] at h
    dsimp only [Bind.bind, Except.instMonad, Except.bind] at h
    exact absurd h (by simp)
  | ok tr0 =>
    rw [hw] at h
    dsimp only [Bind.bind, Except.instMonad, Except.bind] at h
    cases hb : pyFontGet font BLANK with
    | error e =>
      rw [hb] at h
      dsimp only [Bind.bind, Except.instMonad, Except.bind] at h
      exact absurd h (by simp)
    | ok blank =>
      rw [hb] at h
      dsimp only [Bind.bind, Except.instMonad, Except.bind] at h
      by_cases hL : st.encoded.length = 0
      · rw [if_pos hL] at h
        exact absurd h (by simp)
      · rw [if_neg hL] at h
        simp only [Except.ok.injEq, Prod.mk.injEq] at h
        obtain ⟨-, -, hst⟩ := h
        have hLne : ((st.encoded.length : Int)) ≠ 0 := by exact_mod_cast hL
        have hpos : (0 : Int) < (st.encoded.length : Int) := by
          exact_mod_cast Nat.pos_of_ne_zero hL
        rw [← hst]
        refine ⟨Int.emod_nonneg _ hLne, ?_⟩
        simpa using Int.emod_lt_of_pos (st.cursor + amount) hpos

/-- C9 witness: a completed `scroll(-7, 0)` call on the 3-byte message
`[1,2,3]` leaves the cursor at `(0 - 7) % 3 = 2`, inside `[0, 3)`. -/
theorem C9_cursor_in_range_witness :
    0 ≤ (ScrollState.mk [1, 2, 3] 2).cursor ∧
      (ScrollState.mk [1, 2, 3] 2).cursor <
        (((ScrollState.mk [1, 2, 3] 2).encoded.length : Nat) : Int) :=
  C9_cursor_in_range TINKER_FONT 2 ⟨[1, 2, 3], 0⟩ (-7) 0 [] [TraceEv.update 0 (-1)]
    false ⟨[1, 2, 3], 2⟩ (by decide)

lemma loopBreak_of_nonpos (duration : ℚ) (t0 t : Int) (hd : duration ≤ 0) :
    loopBreak duration t0 t = true := by
  have hnd : ¬ (0 : ℚ) < duration := not_lt.mpr hd
  simp [loopBreak, hnd]

lemma printPassGo_nonpos_trace (dls : List Int) (Lt : Nat) (pos : Int) (f : Nat)
    (duration : ℚ) (hd : duration ≤ 0) :
    ∀ (msg : List Nat) (i : Nat), (printPassGo dls Lt pos f duration i msg).1 = [] := by
  intro msg
  have hnd : ¬ (0 : ℚ) < duration := not_lt.mpr hd
  induction msg with
  | nil => intro i; rfl
  | cons b rest ih =>
    intro i
    have hstep : ∀ d : Int,
        ((if d ≠ 0 then
            ((if 0 < duration then [TraceEv.update (b &&& f) d] else []) ++
              (printPassGo dls Lt pos f duration (i + 1) rest).1,
             Int.lor d (printPassGo dls Lt pos f duration (i + 1) rest).2)
          else printPassGo dls Lt pos f duration (i + 1) rest)).1 = [] := by
      intro d
      by_cases hdz : d = 0
      · simp only [hdz, ne_eq, not_true_eq_false, if_false]
        exact ih (i + 1)
      · simp only [ne_eq, hdz, not_false_eq_true, if_true, if_neg hnd,
          List.nil_append]
        exact ih (i + 1)
    rw [printPassGo]
    dsimp only
    by_cases hp : 0 ≤ pos
    · rw [if_pos hp]
      cases dls.get? (pos + (i : Int)).toNat with
      | none => rfl
      | some d => exact hstep d
    · rw [if_neg hp]
      by_cases hj : 0 ≤ (dls.length : Int) - (Lt : Int) + pos + (i : Int) + 1
      · rw [if_pos hj]
        cases dls.get? ((dls.length : Int) - (Lt : Int) + pos + (i : Int) + 1).toNat with
        | none => exact hstep 0
        | some d => exact hstep d
      · rw [if_neg hj]
        exact hstep 0

lemma printWhile_nonpos_trace (dls : List Int) (Lt : Nat) (pos : Int) (f : Nat)
    (duration : ℚ) (msg : List Nat) (t0 : Int) (hd : duration ≤ 0) :
    ∀ ticks : List Int, (printWhile dls Lt pos f duration msg t0 ticks).1 = [] := by
  intro ticks
  cases ticks with
  | nil =>
    rw [printWhile]
    exact printPassGo_nonpos_trace dls Lt pos f duration hd msg 0
  | cons t ts =>
    rw [printWhile]
    dsimp only
    rw [if_pos (loopBreak_of_nonpos duration t0 t hd)]
    exact printPassGo_nonpos_trace dls Lt pos f duration hd msg 0

lemma printFades_nonpos_trace (dls : List Int) (msg : List Nat) (pos : Int)
    (duration : ℚ) (hd : duration ≤ 0) :
    ∀ (fade : List Nat) (ticks : List Int),
      (printFades dls msg pos duration fade ticks).1 = [] := by
  intro fade
  induction fade with
  | nil => intro ticks; rfl
  | cons f fs ih =>
    intro ticks
    rw [printFades]
    dsimp only
    rw [printWhile_nonpos_trace dls msg.length pos f duration msg _ hd, ih,
      List.nil_append]

/-- C10: with `duration <= 0`, `blast` still performs exactly one physical
transmit per glyph of the message — only the sleeps between glyphs are
skipped (and the optional trailing clear is the only extra write) — while
`print` with `duration <= 0` performs no per-glyph transmits at all; so
`blast` with duration 0 is not a write-free bookkeeping call. -/
theorem C10_blast_transmits_print_does_not (font : List (Char × Nat))
    (msg : List Nat) (displays : Int) (duration : ℚ) (dls : List Int) (pos : Int)
    (fade : List Nat) (ticks : List Int) (hd : duration ≤ 0) :
    blast font msg displays duration (some false) =
        .ok (msg.map fun b => TraceEv.update b displays) ∧
      blast TINKER_FONT msg displays duration none =
        .ok ((msg.map fun b => TraceEv.update b displays) ++
          (if 1 < msg.length then [TraceEv.update 0x00 displays] else [])) ∧
      print font dls msg pos duration fade (some false) ticks = .ok [] := by
  have hnd : ¬ (0 : ℚ) < duration := not_lt.mpr hd
  have hbody : (msg.flatMap fun b =>
      TraceEv.update b displays ::
        (if 0 < duration then [TraceEv.sleep duration] else [])) =
      msg.map fun b => TraceEv.update b displays := by
    induction msg with
    | nil => rfl
    | cons b rest ih => simp_all
  refine ⟨?_, ?_, ?_⟩
  · rw [blast]
    simp only [Option.getD_some, hbody]
    rw [if_neg (by simp)]
  · rw [blast]
    dsimp only [Option.getD_none]
    by_cases hlen : 1 < msg.length
    · rw [if_pos (decide_eq_true hlen), if_pos hlen, hbody]
      rfl
    · rw [if_neg (by simpa using hlen), if_neg hlen, hbody, List.append_nil]
  · rw [print]
    dsimp only [Option.getD_some]
    rw [printFades_nonpos_trace dls msg pos duration hd fade ticks,
      if_neg (by simp)]

/-- C10 witness: the statement at duration 0 with a concrete two-glyph
message on a two-digit display. -/
theorem C10_blast_transmits_print_does_not_witness :
    blast TINKER_FONT [1, 2] (-1) 0 (some false) =
        .ok [TraceEv.update 1 (-1), TraceEv.update 2 (-1)] ∧
      blast TINKER_FONT [1, 2] (-1) 0 none =
        .ok [TraceEv.update 1 (-1), TraceEv.update 2 (-1), TraceEv.update 0 (-1)] ∧
      print TINKER_FONT [2, 1] [1, 2] 0 0 [0xFF] (some false) [] = .ok [] := by
  have h := C10_blast_transmits_print_does_not TINKER_FONT [1, 2] (-1) 0 [2, 1] 0
    [0xFF] [] (by decide)
  exact ⟨h.1.trans (by decide), h.2.1.trans (by decide), h.2.2⟩

lemma scrollPassGo_dur0 (enc : List Nat) (cursor : Int) (D : Nat) (hL : enc ≠ []) :
    ∀ is : List Nat, scrollPassGo enc cursor 0 D is = .ok [] := by
  have hL0 : ¬ enc.length = 0 := by simpa using hL
  intro is
  induction is with
  | nil => rfl
  | cons i is ih =>
    rw [scrollPassGo, if_neg hL0]
    have hpos : (0 : Int) < (enc.length : Int) := by
      exact_mod_cast Nat.pos_of_ne_zero hL0
    have hidx : ((cursor + (i : Int)) % (enc.length : Int)).toNat < enc.length := by
      have h1 := Int.emod_nonneg (cursor + (i : Int)) (by omega : (enc.length : Int) ≠ 0)
      have h2 := Int.emod_lt_of_pos (cursor + (i : Int)) hpos
      omega
    rw [List.get?_eq_get hidx]
    dsimp only [Option.elim]
    rw [ih]
    dsimp only [Bind.bind, Except.instMonad, Except.bind]
    rw [if_neg (lt_irrefl (0 : ℚ))]
    rfl

/-- One `scroll(+1, duration=0)` call on a non-empty message: no updates
from the refresh loop, one clear transmit, the return boolean of
lines 296-301 and the advanced cursor. -/
lemma scrollCall_step (D : Nat) (enc : List Nat) (c : Int) (hL : enc ≠ []) :
    scrollCall TINKER_FONT D ⟨enc, c⟩ 1 0 [] =
      .ok ([TraceEv.update 0 (-1)],
        decide (c + 1 + (D : Int) ≤ (enc.length : Int) ∧ 0 ≤ c + 1),
        ⟨enc, (c + 1) % (enc.length : Int)⟩) := by
  have hL0 : ¬ enc.length = 0 := by simpa using hL
  have hw : scrollWhile D enc c 0 (takeTick []).1 (takeTick []).2 = .ok [] :=
    scrollPassGo_dur0 enc c D hL (List.range D)
  have hbl : pyFontGet TINKER_FONT BLANK = Except.ok 0 := rfl
  unfold scrollCall
  dsimp only
  rw [hw]
  dsimp only [Bind.bind, Except.instMonad, Except.bind]
  rw [hbl]
  dsimp only
  rw [if_neg hL0]
  rfl

/-- `scrollCall_step` with a natural-number cursor: the returned boolean
collapses to the window-in-range test `start + 1 + D ≤ len`. -/
lemma scrollCall_stepNat (D : Nat) (enc : List Nat) (start : Nat) (hL : enc ≠ []) :
    scrollCall TINKER_FONT D ⟨enc, (start : Nat)⟩ 1 0 [] =
      .ok ([TraceEv.update 0 (-1)], decide (start + 1 + D ≤ enc.length),
        ⟨enc, ((start : Int) + 1) % (enc.length : Int)⟩) := by
  rw [scrollCall_step D enc _ hL]
  have hdec : decide ((start : Int) + 1 + (D : Int) ≤ (enc.length : Int) ∧
      0 ≤ (start : Int) + 1) = decide (start + 1 + D ≤ enc.length) := by
    rw [decide_eq_decide]
    omega
  rw [hdec]

/-- The left-to-right sweep, counted from `n := len - D - start` remaining
in-range advances. -/
lemma scrollSeq_sweep_aux (D : Nat) (enc : List Nat) (hD : 0 < D)
    (hDL : D ≤ enc.length) (hL : enc ≠ []) :
    ∀ n start : Nat, start ≤ enc.length - D → enc.length - D - start = n →
      scrollSeq TINKER_FONT D ⟨enc, (start : Nat)⟩ (n + 1) =
        .ok ((List.range (n + 1)).map fun k =>
            (((start + k : Nat) : Int), decide (start + k + 1 + D ≤ enc.length)),
          ⟨enc, ((enc.length - D + 1 : Nat) : Int) % (enc.length : Int)⟩) := by
  intro n
  induction n with
  | zero =>
    intro start hstart hn
    have hs : start = enc.length - D := by omega
    rw [scrollSeq, scrollCall_stepNat D enc _ hL]
    dsimp only [Bind.bind, Except.instMonad, Except.bind]
    rw [scrollSeq]
    dsimp only [Bind.bind, Except.instMonad, Except.bind]
    -- the single-entry trace sides are definitionally equal; the final
    -- state needs cursor (start + 1) % len with start = len - D
    congr 1
    congr 1
    congr 2
    omega
  | succ n ih =>
    intro start hstart hn
    have hlt : start < enc.length - D := by omega
    rw [scrollSeq, scrollCall_stepNat D enc _ hL]
    dsimp only [Bind.bind, Except.instMonad, Except.bind]
    have hcur : ((start : Int) + 1) % (enc.length : Int) = ((start + 1 : Nat) : Int) := by
      rw [Int.emod_eq_of_lt (by omega) (by omega)]
      push_cast
      ring
    rw [hcur, ih (start + 1) (by omega) (by omega)]
    dsimp only [Bind.bind, Except.instMonad, Except.bind]
    congr 1
    congr 1
    conv_rhs => rw [List.range_succ_eq_map, List.map_cons, List.map_map]
    simp only [Nat.add_zero]
    congr 1
    refine List.map_congr_left fun a _ => ?_
    dsimp only [Function.comp, Nat.succ_eq_add_one]
    rw [show start + (a + 1) = start + 1 + a from by ring]

/-- C5: after `scroll_init(msg, start)` with a message at least as long as
the digit count, repeated `scroll(+1, duration=0)` calls process the window
base at every cursor position from `start` to `len - D` inclusive, each
exactly once, returning `true` exactly while the advanced cursor still
keeps the full `D`-wide window in range (positions up to `len - D - 1`)
and `false` for the first time on the call made at position `len - D`. -/
theorem C5_scroll_forward_sweep (D : Nat) (enc : List Nat) (start : Nat)
    (hD : 0 < D) (hDL : D ≤ enc.length) (hstart : start ≤ enc.length - D) :
    scrollSeq TINKER_FONT D ⟨enc, (start : Nat)⟩ (enc.length - D - start + 1) =
      .ok ((List.range (enc.length - D - start + 1)).map fun k =>
          (((start + k : Nat) : Int), decide (start + k + 1 + D ≤ enc.length)),
        ⟨enc, ((enc.length - D + 1 : Nat) : Int) % (enc.length : Int)⟩) := by
  have hL : enc ≠ [] := by
    intro h
    rw [h] at hDL
    simp only [List.length_nil, Nat.le_zero] at hDL
    omega
  exact scrollSeq_sweep_aux D enc hD hDL hL (enc.length - D - start) start hstart rfl

/-- C5 witness: a 5-byte message on a 2-digit display starting at cursor 1
visits positions 1, 2, 3 returning true, true, false. -/
theorem C5_scroll_forward_sweep_witness :
    scrollSeq TINKER_FONT 2 ⟨[10, 20, 30, 40, 50], 1⟩ 3 =
      .ok ([(1, true), (2, true), (3, false)], ⟨[10, 20, 30, 40, 50], 4⟩) := by
  have h := C5_scroll_forward_sweep 2 [10, 20, 30, 40, 50] 1 (by decide) (by decide)
    (by decide)
  exact h.trans (by decide)

end TM74HC595
